import Mathlib

/-!
Shallow embedding of the IceStreamingService streamer relay (src/Streamer.cpp)
and proofs about its broadcast, chunk-read, relay-cycle, connect-retry,
initialization, cleanup and argument-parsing logic.

Machine-level effects (socket system calls, the transcoder subprocess, the
Ice remote calls) are modelled by their observable results: each system call
appearing in the source becomes an input (its return value) or an emitted
action, and the control flow of the source is reproduced exactly.
-/

namespace StreamingService

/-- BUFFER_SIZE from Streamer.cpp line 18: bytes per relay chunk. -/
def BUFFER_SIZE : Int := 256

/-- sleepTime from Streamer::Run: fixed per-cycle sleep in milliseconds. -/
def sleepTime : Int := 20

/-- tickTimer from Streamer::Run: per-cycle broadcast tick budget in milliseconds. -/
def tickTimer : Int := 30

/-! ## Client set broadcast (Streamer::Run lines 318-328)

The source runs `_clientList.remove_if(lambda)` where the lambda performs
`write(clientSocket, buffer, BUFFER_SIZE)` and returns true (remove) exactly
when the write returned a negative value.  The lambda contains no `close`
call.  `writeRet` gives the return value of `write` on each client socket. -/

structure BroadcastRun where
  survivors : List Int
  writeCalls : List Int
  closedInPass : List Int
deriving DecidableEq, Repr

/-- Embedding of the `remove_if` broadcast pass of Streamer::Run: walk the
client list in order, call `write` once per client, drop a client exactly
when its write returned a negative value.  No client socket is closed by the
pass (the lambda has no close call), hence `closedInPass` stays empty. -/
def broadcastAndPrune (clients : List Int) (writeRet : Int → Int) : BroadcastRun :=
  match clients with
  | [] => ⟨[], [], []⟩
  | c :: rest =>
    let r := broadcastAndPrune rest writeRet
    if writeRet c < 0 then ⟨r.survivors, c :: r.writeCalls, r.closedInPass⟩
    else ⟨c :: r.survivors, c :: r.writeCalls, r.closedInPass⟩

/-- Write outcome used in the C1 counterexample: the write to socket 1 is a
partial write of 100 of the 256 bytes; every other write is complete. -/
def wPartial : Int → Int := fun c => if c = 1 then 100 else 256

/-- Write outcome used in the C1 counterexample: the write to socket 1 fails
with an error (-1); every other write is complete. -/
def wFail : Int → Int := fun c => if c = 1 then -1 else 256

/-! ## Chunk read loop (Streamer::Run lines 300-316)

The inner `while (remaining > 0)` loop checks the `early_exit` flag, calls
`read`, returns from Run if the read returned a negative value, and
otherwise subtracts the returned count from `remaining`.  A `ReadStep`
records what one iteration observes: either the cancellation flag was set,
or `read` returned `n`. -/

inductive ReadStep where
  | earlyExitSet : ReadStep
  | ret (n : Int) : ReadStep
deriving DecidableEq, Repr

inductive ChunkOutcome where
  | chunk (remaining : Int) : ChunkOutcome
  | cancelled : ChunkOutcome
  | readError : ChunkOutcome
  | starved (remaining : Int) : ChunkOutcome
deriving DecidableEq, Repr

/-- Embedding of the chunk-assembly loop of Streamer::Run: loop while
`remaining > 0`; on each iteration return `cancelled` if the flag is set,
`readError` if the read returned a negative count, otherwise subtract the
count read.  `starved r` means the observation trace ran out while the loop
still needs `r` more bytes, i.e. the loop is about to call `read` again. -/
def readChunkLoop (remaining : Int) (steps : List ReadStep) : ChunkOutcome :=
  if remaining ≤ 0 then ChunkOutcome.chunk remaining
  else
    match steps with
    | [] => ChunkOutcome.starved remaining
    | ReadStep.earlyExitSet :: _ => ChunkOutcome.cancelled
    | ReadStep.ret n :: rest =>
      if n < 0 then ChunkOutcome.readError
      else readChunkLoop (remaining - n) rest

/-! ## Theorems for C1 -/

theorem broadcastAndPrune_spec (clients : List Int) (w : Int → Int) :
    (broadcastAndPrune clients w).writeCalls = clients
    ∧ (broadcastAndPrune clients w).survivors = clients.filter (fun c => decide (0 ≤ w c))
    ∧ (broadcastAndPrune clients w).closedInPass = [] := by
  induction clients with
  | nil => simp [broadcastAndPrune]
  | cons c rest ih =>
    by_cases h : w c < 0
    · have hd : decide (0 ≤ w c) = false := by
        simp [decide_eq_false_iff_not]
        omega
      simp [broadcastAndPrune, h, ih, List.filter_cons, hd]
    · have hd : decide (0 ≤ w c) = true := by
        simp [decide_eq_true_eq]
        omega
      simp [broadcastAndPrune, h, ih, List.filter_cons, hd]

/-- C1, counterexample.  The claim predicts, for the client set [1, 2]:
with a partial write (100 of 256 bytes) to socket 1, socket 1 is removed and
closed; and with an erroring write to socket 1, socket 1 is closed in the
pass.  The code keeps the partially-written client and never closes any
socket inside the pass. -/
theorem C1_counterexample :
    (¬ ((1 : Int) ∉ (broadcastAndPrune [1, 2] wPartial).survivors
        ∧ (1 : Int) ∈ (broadcastAndPrune [1, 2] wPartial).closedInPass))
    ∧ ¬ ((1 : Int) ∈ (broadcastAndPrune [1, 2] wFail).closedInPass) := by
  refine ⟨?_, ?_⟩ <;> decide

/-- C1, amended.  The broadcast pass calls write once for every member
socket in order; exactly the sockets whose write returned a negative value
are removed from the set in the same pass, so a partial write counts as
success and the client stays; the removed sockets are not closed by the
pass; the other sockets receive the write and remain, in order. -/
theorem C1_broadcast_amended (clients : List Int) (w : Int → Int) :
    (broadcastAndPrune clients w).writeCalls = clients
    ∧ (broadcastAndPrune clients w).survivors = clients.filter (fun c => decide (0 ≤ w c))
    ∧ (broadcastAndPrune clients w).closedInPass = [] :=
  broadcastAndPrune_spec clients w

/-! ## Theorems for C2 -/

theorem readChunkLoop_eof_spin (r : Int) (hr : 0 < r) :
    ∀ j : Nat, readChunkLoop r (List.replicate j (ReadStep.ret 0)) = ChunkOutcome.starved r := by
  intro j
  induction j with
  | zero => simp [readChunkLoop]; omega
  | succ j ih =>
    rw [List.replicate_succ]
    rw [readChunkLoop]
    simp only [if_neg (by omega : ¬ r ≤ 0)]
    norm_num
    simpa using ih

/-- C2, code bug.  When the upstream socket closes (end of stream), `read`
returns 0 on every subsequent call; the loop only tests for a negative
return, so `remaining` never decreases and the loop never terminates with an
error: after a first read of 100 bytes, any number of end-of-stream reads
leaves the loop still starved for the remaining 156 bytes, never producing
`readError` (and never a short chunk).  The claim - and the spec - require
an error return when the socket closes before 256 bytes. -/
theorem C2_eof_never_errors (k : Nat) :
    readChunkLoop BUFFER_SIZE (ReadStep.ret 100 :: List.replicate k (ReadStep.ret 0))
      = ChunkOutcome.starved 156
    ∧ (∀ j : Nat,
        readChunkLoop 156 (List.replicate j (ReadStep.ret 0)) = ChunkOutcome.starved 156) := by
  constructor
  · rw [readChunkLoop]
    have h1 : ¬ BUFFER_SIZE ≤ 0 := by decide
    simp only [if_neg h1]
    have h2 : ¬ (100 : Int) < 0 := by decide
    simp only [if_neg h2]
    have h3 : BUFFER_SIZE - 100 = 156 := by decide
    rw [h3]
    exact readChunkLoop_eof_spin 156 (by decide) k
  · exact readChunkLoop_eof_spin 156 (by decide)

/-! ## Relay cycle (Streamer::Run lines 282-335)

One outer-loop cycle: one `accept4` call (adding the returned socket to the
client list when it is positive), one `usleep(sleepTime)`, a timestamp
`timeBeforeTick`, then the inner loop.  Each inner iteration assembles one
full chunk and broadcasts it; a `ChunkEvent` records how one iteration went:
`ok w now` means the chunk completed, `write` on each client returned per
`w`, and `getMSTime()` after the broadcast returned `now`; `readFail` means
the chunk read returned an error (Run returns); `cancelFlag` means the
`early_exit` flag was observed set inside the read (Run returns). -/

inductive ChunkEvent where
  | ok (w : Int → Int) (now : Int) : ChunkEvent
  | readFail : ChunkEvent
  | cancelFlag : ChunkEvent

/-- Whether a chunk event is a completed chunk whose post-broadcast
timestamp is still within the tick budget measured from `start`. -/
def ChunkEvent.okWithin (start budget : Int) : ChunkEvent → Prop
  | .ok _ now => now - start ≤ budget
  | _ => False

inductive InnerExit where
  | yield : InnerExit
  | shutdown : InnerExit
  | exitEarly : InnerExit
  | pendingMore : InnerExit
deriving DecidableEq, Repr

inductive RelayStep where
  | acceptCall (ret : Int) : RelayStep
  | addClient (fd : Int) : RelayStep
  | sleepCall (ms : Int) : RelayStep
  | chunkBroadcast : RelayStep
  | budgetBreak : RelayStep
  | runReturn : RelayStep
deriving DecidableEq, Repr

def RelayStep.isAdd : RelayStep → Bool
  | .addClient _ => true
  | _ => false

structure InnerResult where
  clients : List Int
  chunksSent : Nat
  exit : InnerExit
  trace : List RelayStep
deriving DecidableEq, Repr

/-- Embedding of the inner `while (true)` send loop of Streamer::Run: each
completed chunk is broadcast (through `broadcastAndPrune`), then the elapsed
time since `start` is compared against `budget` and the loop breaks when it
is exceeded; a read error or an observed cancellation flag returns from Run
before any broadcast of that iteration. -/
def innerLoop (start budget : Int) (clients : List Int) :
    List ChunkEvent → InnerResult
  | [] => ⟨clients, 0, InnerExit.pendingMore, []⟩
  | ChunkEvent.cancelFlag :: _ => ⟨clients, 0, InnerExit.exitEarly, [RelayStep.runReturn]⟩
  | ChunkEvent.readFail :: _ => ⟨clients, 0, InnerExit.shutdown, [RelayStep.runReturn]⟩
  | ChunkEvent.ok w now :: rest =>
    let cs := (broadcastAndPrune clients w).survivors
    if now - start > budget then
      ⟨cs, 1, InnerExit.yield, [RelayStep.chunkBroadcast, RelayStep.budgetBreak]⟩
    else
      let r := innerLoop start budget cs rest
      ⟨r.clients, r.chunksSent + 1, r.exit, RelayStep.chunkBroadcast :: r.trace⟩

structure CycleResult where
  clientsAfterAccept : List Int
  inner : InnerResult
  trace : List RelayStep

/-- Embedding of one iteration of the outer `while (true)` loop of
Streamer::Run: `accept4` returning `a` (the client is appended exactly when
`a > 0`), a fixed `usleep(sleepTime)`, the `timeBeforeTick := start`
timestamp, then the inner send loop with budget `tickTimer`. -/
def runCycle (clients : List Int) (a start : Int) (events : List ChunkEvent) :
    CycleResult :=
  let clients1 := if a > 0 then clients ++ [a] else clients
  let r := innerLoop start tickTimer clients1 events
  ⟨clients1, r,
    RelayStep.acceptCall a ::
      ((if a > 0 then [RelayStep.addClient a] else []) ++
        RelayStep.sleepCall sleepTime :: r.trace)⟩

/-! ## Lemmas about the inner loop -/

theorem innerLoop_no_add (start budget : Int) (clients : List Int)
    (events : List ChunkEvent) :
    ∀ st ∈ (innerLoop start budget clients events).trace, st.isAdd = false := by
  induction events generalizing clients with
  | nil => simp [innerLoop]
  | cons e rest ih =>
    cases e with
    | cancelFlag => simp [innerLoop, RelayStep.isAdd]
    | readFail => simp [innerLoop, RelayStep.isAdd]
    | ok w now =>
      by_cases h : now - start > budget
      · simp [innerLoop, h, RelayStep.isAdd]
      · intro st hst
        simp only [innerLoop, if_neg h, List.mem_cons] at hst
        rcases hst with h1 | h2
        · simp [h1, RelayStep.isAdd]
        · exact ih _ st h2

theorem innerLoop_yield_at_first_overshoot (start budget : Int)
    (pre : List ChunkEvent) (w : Int → Int) (now : Int) (rest : List ChunkEvent)
    (hpre : ∀ e ∈ pre, e.okWithin start budget) (hover : now - start > budget) :
    ∀ clients : List Int,
      (innerLoop start budget clients (pre ++ ChunkEvent.ok w now :: rest)).exit
          = InnerExit.yield
      ∧ (innerLoop start budget clients (pre ++ ChunkEvent.ok w now :: rest)).chunksSent
          = pre.length + 1 := by
  induction pre with
  | nil =>
    intro clients
    simp [innerLoop, if_pos hover]
  | cons e pre ih =>
    intro clients
    have he : e.okWithin start budget := hpre e (by simp)
    cases e with
    | cancelFlag => exact absurd he (by simp [ChunkEvent.okWithin])
    | readFail => exact absurd he (by simp [ChunkEvent.okWithin])
    | ok w0 n0 =>
      have hin : ¬ n0 - start > budget := by
        simp only [ChunkEvent.okWithin] at he
        omega
      have ih2 := ih (fun e he2 => hpre e (by simp [he2]))
        (broadcastAndPrune clients w0).survivors
      simp only [List.cons_append, innerLoop, if_neg hin]
      constructor
      · exact ih2.1
      · simp [ih2.2, List.length_cons]

theorem innerLoop_shutdown_at_fail (start budget : Int)
    (pre : List ChunkEvent) (rest : List ChunkEvent)
    (hpre : ∀ e ∈ pre, e.okWithin start budget) :
    ∀ clients : List Int,
      (innerLoop start budget clients (pre ++ ChunkEvent.readFail :: rest)).exit
          = InnerExit.shutdown
      ∧ (innerLoop start budget clients (pre ++ ChunkEvent.readFail :: rest)).chunksSent
          = pre.length := by
  induction pre with
  | nil =>
    intro clients
    simp [innerLoop]
  | cons e pre ih =>
    intro clients
    have he : e.okWithin start budget := hpre e (by simp)
    cases e with
    | cancelFlag => exact absurd he (by simp [ChunkEvent.okWithin])
    | readFail => exact absurd he (by simp [ChunkEvent.okWithin])
    | ok w0 n0 =>
      have hin : ¬ n0 - start > budget := by
        simp only [ChunkEvent.okWithin] at he
        omega
      have ih2 := ih (fun e he2 => hpre e (by simp [he2]))
        (broadcastAndPrune clients w0).survivors
      simp only [List.cons_append, innerLoop, if_neg hin]
      constructor
      · exact ih2.1
      · simp [ih2.2, List.length_cons]

theorem innerLoop_yield_imp_chunk (start budget : Int) (clients : List Int)
    (events : List ChunkEvent) :
    (innerLoop start budget clients events).exit = InnerExit.yield →
      1 ≤ (innerLoop start budget clients events).chunksSent := by
  induction events generalizing clients with
  | nil => simp [innerLoop]
  | cons e rest ih =>
    cases e with
    | cancelFlag => simp [innerLoop]
    | readFail => simp [innerLoop]
    | ok w now =>
      by_cases h : now - start > budget
      · simp [innerLoop, h]
      · intro hy
        simp only [innerLoop, if_neg h] at hy ⊢
        omega

/-- Write outcome where every write is a complete 256-byte write. -/
def wOk : Int → Int := fun _ => 256

/-! ## Theorems for C3 and C10 -/

/-- C3.  Every RUNNING cycle performs, in order, one accept call (adding at
most one client), one fixed 20 ms sleep, then the inner send loop; the inner
loop reaches shutdown when the chunk read fails (after exactly the chunks
completed before the failure), and breaks back to the accept step with
exactly the first chunk whose completion finds the elapsed time over the
30 ms tick budget - it never continues past that chunk. -/
theorem C3_relay_cycle_structure (clients : List Int) (a start : Int)
    (events pre rest rest2 : List ChunkEvent) (w : Int → Int) (now : Int)
    (hpre : ∀ e ∈ pre, e.okWithin start tickTimer)
    (hover : now - start > tickTimer) :
    ((runCycle clients a start events).trace
        = RelayStep.acceptCall a ::
            ((if a > 0 then [RelayStep.addClient a] else []) ++
              RelayStep.sleepCall sleepTime :: (runCycle clients a start events).inner.trace)
      ∧ ((runCycle clients a start events).trace.filter RelayStep.isAdd).length ≤ 1)
    ∧ ((runCycle clients a start (pre ++ ChunkEvent.readFail :: rest2)).inner.exit
          = InnerExit.shutdown
        ∧ (runCycle clients a start (pre ++ ChunkEvent.readFail :: rest2)).inner.chunksSent
          = pre.length)
    ∧ ((runCycle clients a start (pre ++ ChunkEvent.ok w now :: rest)).inner.exit
          = InnerExit.yield
        ∧ (runCycle clients a start (pre ++ ChunkEvent.ok w now :: rest)).inner.chunksSent
          = pre.length + 1) := by
  refine ⟨⟨rfl, ?_⟩, ?_, ?_⟩
  · have hinner : ∀ cs : List Int, ((innerLoop start tickTimer cs events).trace.filter
        RelayStep.isAdd) = [] := by
      intro cs
      apply List.filter_eq_nil_iff.mpr
      intro st hst
      simp [innerLoop_no_add start tickTimer cs events st hst]
    by_cases ha : a > 0 <;>
      simp [runCycle, ha, List.filter_append, hinner, RelayStep.isAdd]
  · simpa [runCycle] using
      innerLoop_shutdown_at_fail start tickTimer pre rest2 hpre
        (if a > 0 then clients ++ [a] else clients)
  · simpa [runCycle] using
      innerLoop_yield_at_first_overshoot start tickTimer pre w now rest hpre hover
        (if a > 0 then clients ++ [a] else clients)

/-- Witness for C3 at a concrete cycle: client set [3], accept returns fd 7,
cycle start 0, ok-chunk completing at 40 ms (over the 30 ms budget). -/
theorem C3_relay_cycle_structure_witness :
    (∀ e ∈ ([] : List ChunkEvent), e.okWithin 0 tickTimer)
    ∧ ((40 : Int) - 0 > tickTimer)
    ∧ (((runCycle [3] 7 0 []).trace
          = RelayStep.acceptCall 7 ::
              ((if (7 : Int) > 0 then [RelayStep.addClient 7] else []) ++
                RelayStep.sleepCall sleepTime :: (runCycle [3] 7 0 []).inner.trace)
        ∧ ((runCycle [3] 7 0 []).trace.filter RelayStep.isAdd).length ≤ 1)
      ∧ ((runCycle [3] 7 0 [ChunkEvent.readFail]).inner.exit = InnerExit.shutdown
        ∧ (runCycle [3] 7 0 [ChunkEvent.readFail]).inner.chunksSent = 0)
      ∧ ((runCycle [3] 7 0 [ChunkEvent.ok wOk 40]).inner.exit = InnerExit.yield
        ∧ (runCycle [3] 7 0 [ChunkEvent.ok wOk 40]).inner.chunksSent = 0 + 1)) :=
  ⟨by simp, by decide,
    C3_relay_cycle_structure [3] 7 0 [] [] [] [] wOk 40 (by simp) (by decide)⟩

/-- C10.  The tick-budget comparison only happens after a chunk completes:
an inner loop that yields has broadcast at least one chunk, and when the
budget is already exceeded at the first completed chunk the loop still
broadcasts that chunk (pruning through broadcastAndPrune) and only then
breaks, having sent exactly one chunk. -/
theorem C10_chunk_precedes_budget_check (start : Int) (cs : List Int)
    (events : List ChunkEvent) (w : Int → Int) (now : Int)
    (rest : List ChunkEvent) (hover : now - start > tickTimer) :
    ((innerLoop start tickTimer cs events).exit = InnerExit.yield →
        1 ≤ (innerLoop start tickTimer cs events).chunksSent)
    ∧ innerLoop start tickTimer cs (ChunkEvent.ok w now :: rest)
        = ⟨(broadcastAndPrune cs w).survivors, 1, InnerExit.yield,
            [RelayStep.chunkBroadcast, RelayStep.budgetBreak]⟩ := by
  refine ⟨innerLoop_yield_imp_chunk start tickTimer cs events, ?_⟩
  simp [innerLoop, if_pos hover]

/-- Witness for C10 at a concrete inner loop: one client, first chunk
completing at 50 ms with the budget measured from 0. -/
theorem C10_chunk_precedes_budget_check_witness :
    ((50 : Int) - 0 > tickTimer)
    ∧ (((innerLoop 0 tickTimer [1] []).exit = InnerExit.yield →
          1 ≤ (innerLoop 0 tickTimer [1] []).chunksSent)
      ∧ innerLoop 0 tickTimer [1] (ChunkEvent.ok wOk 50 :: [])
          = ⟨(broadcastAndPrune [1] wOk).survivors, 1, InnerExit.yield,
              [RelayStep.chunkBroadcast, RelayStep.budgetBreak]⟩) :=
  ⟨by decide, C10_chunk_precedes_budget_check 0 [1] [] wOk 50 [] (by decide)⟩

/-! ## Connect-retry loop (Streamer::Initialize lines 220-234)

The source loops: if `early_exit` is set, log and return false; otherwise
call `connect`; break when it returned a non-negative value; otherwise
`usleep(500ms)` and repeat.  `cancel i` gives the value of the `early_exit`
flag observed at the start of iteration `i`, and `conn i` the return value
of the `connect` call of iteration `i` (when one is made).  Fuel bounds the
number of iterations examined; running out of fuel means the loop is still
retrying. -/

/-- Backoff sleep of the connect-retry loop, in milliseconds
(`usleep(500 * 1e3)` in the source). -/
def connectBackoffMs : Int := 500

inductive ConnectResult where
  | cancelledAt (iter : Nat) : ConnectResult
  | connectedAt (iter : Nat) : ConnectResult
  | fuelOut : ConnectResult
deriving DecidableEq, Repr

structure ConnectRun where
  result : ConnectResult
  attempts : Nat
  sleeps : Nat
deriving DecidableEq, Repr

/-- Embedding of the connect-retry loop: `attempts` counts `connect` calls
made, `sleeps` counts 500 ms backoff sleeps performed (within the examined
fuel). -/
def connectLoop (cancel : Nat → Bool) (conn : Nat → Int) : Nat → Nat → ConnectRun
  | _, 0 => ⟨ConnectResult.fuelOut, 0, 0⟩
  | i, fuel + 1 =>
    if cancel i then ⟨ConnectResult.cancelledAt i, 0, 0⟩
    else if 0 ≤ conn i then ⟨ConnectResult.connectedAt i, 1, 0⟩
    else
      let r := connectLoop cancel conn (i + 1) fuel
      ⟨r.result, r.attempts + 1, r.sleeps + 1⟩

/-- Connect always fails (nothing is listening on the transcoder port). -/
def connNever : Nat → Int := fun _ => -1

/-- Cancellation flag never set. -/
def cancelNever : Nat → Bool := fun _ => false

/-- Cancellation flag observed set from iteration 1 onward. -/
def cancelAfterOne : Nat → Bool := fun n => decide (1 ≤ n)

theorem connectLoop_cancel_shifted (cancel : Nat → Bool) (conn : Nat → Int) :
    ∀ (k i fuel : Nat),
      (∀ j, j < k → cancel (i + j) = false ∧ conn (i + j) < 0) →
      cancel (i + k) = true → k < fuel →
      connectLoop cancel conn i fuel = ⟨ConnectResult.cancelledAt (i + k), k, k⟩ := by
  intro k
  induction k with
  | zero =>
    intro i fuel hpre hk hf
    match fuel, hf with
    | fuel + 1, _ =>
      simp only [Nat.add_zero] at hk
      simp [connectLoop, hk]
  | succ k ih =>
    intro i fuel hpre hk hf
    match fuel, hf with
    | fuel + 1, hf =>
      have h0 := hpre 0 (Nat.succ_pos k)
      simp only [Nat.add_zero] at h0
      have hc : ¬ (0 ≤ conn i) := by omega
      have hrec := ih (i + 1) fuel
        (fun j hj => by
          have := hpre (j + 1) (by omega)
          simpa [Nat.add_assoc, Nat.add_comm 1 j] using this)
        (by
          have : i + 1 + k = i + (k + 1) := by omega
          rw [this]
          exact hk)
        (by omega)
      have heq : i + 1 + k = i + (k + 1) := by omega
      rw [heq] at hrec
      simp [connectLoop, h0.1, hc, hrec]

/-- C4.  The cancellation flag is checked before every connect attempt: if
the first k iterations observe the flag unset and a failing connect, and the
flag is observed set at iteration k, the loop returns the cancellation
result at that check, after exactly k connect attempts and k backoff sleeps
- no further connect attempt and no further sleep follow the flag being
observed. -/
theorem C4_connect_cancellation (cancel : Nat → Bool) (conn : Nat → Int)
    (k fuel : Nat)
    (hpre : ∀ j, j < k → cancel j = false ∧ conn j < 0)
    (hk : cancel k = true) (hfuel : k < fuel) :
    connectLoop cancel conn 0 fuel = ⟨ConnectResult.cancelledAt k, k, k⟩ := by
  have := connectLoop_cancel_shifted cancel conn k 0 fuel
    (by intro j hj; simpa using hpre j hj) (by simpa using hk) hfuel
  simpa using this

/-- Witness for C4: the flag becomes set after the first failed attempt; the
loop makes exactly that one attempt and one backoff sleep, then returns the
cancellation result at the very next check. -/
theorem C4_connect_cancellation_witness :
    (cancelAfterOne 0 = false ∧ connNever 0 < 0)
    ∧ cancelAfterOne 1 = true
    ∧ connectLoop cancelAfterOne connNever 0 2
        = ⟨ConnectResult.cancelledAt 1, 1, 1⟩ :=
  ⟨⟨by decide, by decide⟩, by decide,
    C4_connect_cancellation cancelAfterOne connNever 1 2
      (by
        intro j hj
        have hj0 : j = 0 := by omega
        subst hj0
        exact ⟨by decide, by decide⟩)
      (by decide) (by decide)⟩

/-! ## Streamer state, Initialize (lines 136-239) and Close (lines 241-273)

The member fields of the Streamer object that Initialize writes and Close
reads.  Modelled from the spec: the header declaring the fields is not part
of src/, so the pre-initialization values follow the spec lifetimes (no
socket, no process, no portal proxy and no clients exist before
initialization): a null proxy, zero descriptors and pid, an empty client
list. -/

structure StreamerState where
  portalSet : Bool
  listenSocketFd : Int
  ffmpegSocketFd : Int
  ffmpegPid : Int
  clientList : List Int
  newStreamDone : Bool
deriving DecidableEq, Repr

/-- State of the Streamer object before Initialize runs (see the note on
StreamerState). -/
def streamerInit : StreamerState := ⟨false, 0, 0, 0, [], false⟩

inductive CloseAction where
  | closeClient (fd : Int) : CloseAction
  | shutdownClose (fd : Int) : CloseAction
  | closeStreamCall : CloseAction
  | termFfmpeg (pid : Int) : CloseAction
deriving DecidableEq, Repr

def CloseAction.isClientClose : CloseAction → Bool
  | .closeClient _ => true
  | _ => false

structure CloseRun where
  actions : List CloseAction
  state : StreamerState
  threw : Bool
deriving DecidableEq, Repr

/-- Embedding of Streamer::Close.  In order: pop and close every client in
the list; shutdown and close the listen socket if its descriptor is
positive; likewise the ffmpeg socket; call CloseStream on the portal proxy
if it is set; send SIGTERM to and wait for the ffmpeg process if its pid is
positive.  The return values of close, shutdown, kill and wait are ignored
by the source.  `closeStreamThrows` states whether the CloseStream remote
call fails; the Ice runtime reports a failed remote call by raising a C++
exception and the source wraps the call in no try block, so a failing call
aborts Close after the CloseStream action and the remaining steps do not
run (`threw` is then true).  Only the client list is cleared; the
descriptor fields, the proxy and the pid keep their values. -/
def Close (s : StreamerState) (closeStreamThrows : Bool) : CloseRun :=
  let clientActs := s.clientList.map CloseAction.closeClient
  let s1 : StreamerState :=
    ⟨s.portalSet, s.listenSocketFd, s.ffmpegSocketFd, s.ffmpegPid, [], s.newStreamDone⟩
  let listenActs :=
    if s.listenSocketFd > 0 then [CloseAction.shutdownClose s.listenSocketFd] else []
  let upstreamActs :=
    if s.ffmpegSocketFd > 0 then [CloseAction.shutdownClose s.ffmpegSocketFd] else []
  if s.portalSet then
    if closeStreamThrows then
      ⟨clientActs ++ listenActs ++ upstreamActs ++ [CloseAction.closeStreamCall], s1, true⟩
    else
      ⟨clientActs ++ listenActs ++ upstreamActs ++ [CloseAction.closeStreamCall] ++
        (if s.ffmpegPid > 0 then [CloseAction.termFfmpeg s.ffmpegPid] else []), s1, false⟩
  else
    ⟨clientActs ++ listenActs ++ upstreamActs ++
      (if s.ffmpegPid > 0 then [CloseAction.termFfmpeg s.ffmpegPid] else []), s1, false⟩

structure InitEnv where
  portalFound : Bool
  socketRet : Int
  bindRet : Int
  listenRet : Int
  forkRet : Int
  ffmpegSocketRet : Int
deriving DecidableEq, Repr

inductive InitStep where
  | portalLookup : InitStep
  | listenSetup : InitStep
  | forkCall (ret : Int) : InitStep
  | connectPhase : InitStep
  | newStreamCall : InitStep
deriving DecidableEq, Repr

structure InitOutcome where
  ret : Option Bool
  state : StreamerState
  steps : List InitStep
deriving DecidableEq, Repr

/-- Embedding of Streamer::Initialize.  The portal proxy is obtained first
(checkedCast); a null proxy returns false.  The listen socket descriptor is
stored unconditionally and a negative socket, bind or listen return gives
false.  `fork` is then called and its return value is stored in _ffmpegPid
without any check, the ffmpeg socket is created (also unchecked), and the
connect-retry loop runs; observing the cancellation flag returns false,
a successful connect proceeds to NewStream and returns true, and running
out of fuel means the loop is still retrying (`ret = none`). -/
def Initialize (env : InitEnv) (cancel : Nat → Bool) (conn : Nat → Int)
    (fuel : Nat) : InitOutcome :=
  if env.portalFound = false then
    ⟨some false, streamerInit, [InitStep.portalLookup]⟩
  else
    let s2 : StreamerState := ⟨true, env.socketRet, 0, 0, [], false⟩
    if env.socketRet < 0 then
      ⟨some false, s2, [InitStep.portalLookup, InitStep.listenSetup]⟩
    else if env.bindRet < 0 then
      ⟨some false, s2, [InitStep.portalLookup, InitStep.listenSetup]⟩
    else if env.listenRet < 0 then
      ⟨some false, s2, [InitStep.portalLookup, InitStep.listenSetup]⟩
    else
      let s3 : StreamerState := ⟨true, env.socketRet, env.ffmpegSocketRet, env.forkRet, [], false⟩
      match (connectLoop cancel conn 0 fuel).result with
      | ConnectResult.cancelledAt _ =>
        ⟨some false, s3,
          [InitStep.portalLookup, InitStep.listenSetup, InitStep.forkCall env.forkRet,
            InitStep.connectPhase]⟩
      | ConnectResult.fuelOut =>
        ⟨none, s3,
          [InitStep.portalLookup, InitStep.listenSetup, InitStep.forkCall env.forkRet,
            InitStep.connectPhase]⟩
      | ConnectResult.connectedAt _ =>
        ⟨some true, ⟨true, env.socketRet, env.ffmpegSocketRet, env.forkRet, [], true⟩,
          [InitStep.portalLookup, InitStep.listenSetup, InitStep.forkCall env.forkRet,
            InitStep.connectPhase, InitStep.newStreamCall]⟩

/-! ## Helper lemmas about Close and Initialize -/

theorem Close_actions_nf (s : StreamerState) (thr : Bool) :
    (Close s thr).actions
      = s.clientList.map CloseAction.closeClient
        ++ ((if s.listenSocketFd > 0 then [CloseAction.shutdownClose s.listenSocketFd] else [])
        ++ ((if s.ffmpegSocketFd > 0 then [CloseAction.shutdownClose s.ffmpegSocketFd] else [])
        ++ ((if s.portalSet then [CloseAction.closeStreamCall] else [])
        ++ (if 0 < s.ffmpegPid ∧ ¬ (s.portalSet = true ∧ thr = true)
            then [CloseAction.termFfmpeg s.ffmpegPid] else [])))) := by
  by_cases hp : s.portalSet <;> cases thr <;>
    simp [Close, hp, List.append_assoc]

theorem Close_state_eq (s : StreamerState) (thr : Bool) :
    (Close s thr).state
      = ⟨s.portalSet, s.listenSocketFd, s.ffmpegSocketFd, s.ffmpegPid, [], s.newStreamDone⟩ := by
  by_cases hp : s.portalSet <;> cases thr <;> simp [Close, hp]

theorem Close_threw_eq (s : StreamerState) (thr : Bool) :
    (Close s thr).threw = (s.portalSet && thr) := by
  by_cases hp : s.portalSet <;> cases thr <;> simp [Close, hp]

theorem count_closeStream_in_clients (l : List Int) :
    (l.map CloseAction.closeClient).count CloseAction.closeStreamCall = 0 := by
  induction l with
  | nil => rfl
  | cons x l ih => simp [List.count_cons, ih]

theorem count_closeStream (s : StreamerState) (thr : Bool) :
    ((Close s thr).actions).count CloseAction.closeStreamCall
      = if s.portalSet then 1 else 0 := by
  rw [Close_actions_nf]
  by_cases hp : s.portalSet <;>
    simp [hp, List.count_append, List.count_cons, count_closeStream_in_clients] <;>
    split_ifs <;>
    simp

theorem Initialize_portalSet (env : InitEnv) (cancel : Nat → Bool)
    (conn : Nat → Int) (fuel : Nat) :
    (Initialize env cancel conn fuel).state.portalSet = env.portalFound := by
  rcases env with ⟨pf, sr, br, lr, fr, fsr⟩
  cases pf
  · rfl
  · simp only [Initialize]
    norm_num
    split_ifs <;> try rfl
    split <;> rfl

theorem filter_nonclient_map (l : List Int) :
    (l.map CloseAction.closeClient).filter (fun a => ! a.isClientClose) = [] := by
  induction l with
  | nil => rfl
  | cons x l ih => simp [List.filter_cons, CloseAction.isClientClose, ih]

theorem connectLoop_never : ∀ (fuel i : Nat),
    connectLoop cancelNever connNever i fuel
      = ⟨ConnectResult.fuelOut, fuel, fuel⟩ := by
  intro fuel
  induction fuel with
  | zero => intro i; rfl
  | succ fuel ih =>
    intro i
    simp [connectLoop, cancelNever, connNever, ih (i + 1)]

/-! ## Theorems for C5 -/

/-- Concrete state reached by a fully initialized streamer: portal found,
listen socket 4, upstream socket 5, transcoder pid 7, no clients. -/
def sFull : StreamerState := ⟨true, 4, 5, 7, [], true⟩

/-- C5, counterexample.  In the state of a fully initialized streamer, a
failing CloseStream remote call raises an exception that Close does not
catch: the claim instance "the failure is not propagated and the transcoder
termination step still executes" is false - the run throws and the
termFfmpeg step is missing. -/
theorem C5_counterexample :
    ¬ ((Close sFull true).threw = false
        ∧ CloseAction.termFfmpeg 7 ∈ (Close sFull true).actions) := by
  decide

/-- C5, amended.  The cleanup steps up to and including the CloseStream call
are mutually independent: the client closes, the guarded listen-socket and
upstream-socket closes, and the guarded CloseStream call each appear
according to their own guard only (the socket calls have no failure channel
the source consults).  However a failing CloseStream call raises, the
exception propagates out of Close (`threw`), and exactly the transcoder
terminate-and-reap step is then skipped. -/
theorem C5_cleanup_amended (s : StreamerState) (thr : Bool) :
    (Close s thr).actions
      = s.clientList.map CloseAction.closeClient
        ++ ((if s.listenSocketFd > 0 then [CloseAction.shutdownClose s.listenSocketFd] else [])
        ++ ((if s.ffmpegSocketFd > 0 then [CloseAction.shutdownClose s.ffmpegSocketFd] else [])
        ++ ((if s.portalSet then [CloseAction.closeStreamCall] else [])
        ++ (if 0 < s.ffmpegPid ∧ ¬ (s.portalSet = true ∧ thr = true)
            then [CloseAction.termFfmpeg s.ffmpegPid] else []))))
    ∧ (Close s thr).threw = (s.portalSet && thr) :=
  ⟨Close_actions_nf s thr, Close_threw_eq s thr⟩

/-! ## Theorems for C6 -/

/-- Environment in which the portal is found but bind fails, so Initialize
returns false before NewStream is reached. -/
def envBindFail : InitEnv := ⟨true, 4, -1, 0, 8, 5⟩

/-- C6, counterexample.  With the portal found and bind failing,
initialization aborts before NewStream, yet cleanup still performs a
CloseStream call: the claim "CloseStream is called only if registration
succeeded" is false on this run. -/
theorem C6_counterexample :
    ¬ (CloseAction.closeStreamCall
          ∈ (Close (Initialize envBindFail cancelNever connNever 0).state false).actions
        → (Initialize envBindFail cancelNever connNever 0).state.newStreamDone = true) := by
  decide

/-- C6, amended.  Cleanup calls CloseStream exactly once when the portal
lookup (checkedCast) succeeded and never otherwise - registration via
NewStream is irrelevant: a run that fails after the portal is found but
before NewStream still deregisters once, and a registered run cancelled by
SIGINT also deregisters exactly once. -/
theorem C6_closestream_iff_portal_found (env : InitEnv) (cancel : Nat → Bool)
    (conn : Nat → Int) (fuel : Nat) (thr : Bool) :
    ((Close (Initialize env cancel conn fuel).state thr).actions.count
        CloseAction.closeStreamCall = if env.portalFound then 1 else 0)
    ∧ (Initialize env cancel conn fuel).state.portalSet = env.portalFound := by
  refine ⟨?_, Initialize_portalSet env cancel conn fuel⟩
  rw [count_closeStream, Initialize_portalSet]

/-! ## Theorem for C7 -/

/-- Environment in which fork fails (returns -1) and consequently nothing
ever listens on the transcoder port, while the cancellation flag stays
unset. -/
def envForkFail : InitEnv := ⟨true, 4, 0, 0, -1, 5⟩

/-- C7, code bug.  When fork fails, Initialize stores the -1 pid without
checking it and proceeds to the connect-retry loop, which - with no
transcoder listening - keeps retrying: for every iteration bound the run
has not returned (`ret = none`), the connect phase has been entered, and
one connect attempt has been made per examined iteration.  Initialization
neither aborts nor exits non-zero on spawn failure, contradicting the
claim. -/
theorem C7_spawn_failure_not_fatal (fuel : Nat) :
    (Initialize envForkFail cancelNever connNever fuel).ret = none
    ∧ InitStep.connectPhase ∈ (Initialize envForkFail cancelNever connNever fuel).steps
    ∧ (Initialize envForkFail cancelNever connNever fuel).state.ffmpegPid = -1
    ∧ (connectLoop cancelNever connNever 0 fuel).attempts = fuel := by
  have hc := connectLoop_never fuel 0
  refine ⟨?_, ?_, ?_, by rw [hc]⟩ <;>
    simp [Initialize, envForkFail, hc]

/-! ## Theorems for C8 -/

/-- Concrete initialized state with one connected client, used to exhibit
the non-idempotence of Close. -/
def sC8 : StreamerState := ⟨true, 4, 5, 7, [9], true⟩

/-- C8, counterexample.  Running Close twice from a fully initialized state
is not the same as running it once: the claim instance "the second run
closes no socket again, does not repeat CloseStream and does not re-signal
the transcoder" is false - the second run re-closes the listen socket,
repeats the CloseStream call and signals the transcoder again. -/
theorem C8_counterexample :
    ¬ (CloseAction.shutdownClose 4 ∉ (Close (Close sC8 false).state false).actions
        ∧ CloseAction.closeStreamCall ∉ (Close (Close sC8 false).state false).actions
        ∧ CloseAction.termFfmpeg 7 ∉ (Close (Close sC8 false).state false).actions) := by
  decide

/-- C8, amended.  Only the client-list part of Close is idempotent: a second
run closes no client socket (the list was emptied), but it repeats every
other step of the first run - it shuts down and closes the listen and
upstream descriptors again, calls CloseStream again and signals and reaps
the transcoder again - because the descriptor fields, the proxy and the pid
are never cleared. -/
theorem C8_close_twice (s : StreamerState) (t1 t2 : Bool) :
    (∀ fd : Int, CloseAction.closeClient fd ∉ (Close (Close s t1).state t2).actions)
    ∧ (Close (Close s t1).state t2).actions
        = ((Close s t2).actions).filter (fun a => ! a.isClientClose) := by
  rw [Close_state_eq]
  constructor
  · intro fd
    rw [Close_actions_nf]
    split_ifs <;> simp
  · rw [Close_actions_nf, Close_actions_nf]
    simp only [List.filter_append, filter_nonclient_map, List.map_nil,
      List.nil_append]
    split_ifs <;> simp [CloseAction.isClientClose]

/-! ## Command-line handling (Streamer::run lines 44-134) -/

structure Config where
  videoFilePath : String
  streamName : String
  transport : String
  host : String
  listenPort : Int
  ffmpegPort : Int
  videoSize : String
  bitRate : String
  keywords : String
deriving DecidableEq, Repr

/-- Model of C atoi for the argument strings of interest: the integer the
string denotes, 0 when it denotes none.  (C atoi also tolerates trailing
garbage after the digits; no claim depends on that case.) -/
def atoi (s : String) : Int := (s.toInt?).getD 0

/-- One body of the option loop of Streamer::run: match the option name and
store the following argument (unrecognized options are logged and
skipped). -/
def applyOption (cfg : Config) (option arg : String) : Config :=
  if option = "--transport" then { cfg with transport := arg }
  else if option = "--host" then { cfg with host := arg }
  else if option = "--port" then { cfg with listenPort := atoi arg }
  else if option = "--ffmpeg_port" then { cfg with ffmpegPort := atoi arg }
  else if option = "--video_size" then { cfg with videoSize := arg }
  else if option = "--bit_rate" then { cfg with bitRate := arg }
  else if option = "--keywords" then { cfg with keywords := arg }
  else cfg

/-- Embedding of the option loop of Streamer::run.  The loop index advances
by ONE per iteration (`for (int i = 3; i < argc; ++i)`), so after consuming
`arg` as the value of `option` the next iteration examines `arg` itself as
an option; a sole remaining token hits the missing-argument branch
(`i + 1 >= argc`), which returns exit code 1, modelled as `none`. -/
def parseOptions (cfg : Config) : List String → Option Config
  | [] => some cfg
  | [_] => none
  | option :: arg :: rest => parseOptions (applyOption cfg option arg) (arg :: rest)

/-- Embedding of the argument handling of Streamer::run: fewer than two
positional arguments (argc < 3) print usage and return 1 (none); otherwise
the defaults are installed and the option loop runs on the remaining
arguments. -/
def runParse (argv : List String) : Option Config :=
  match argv with
  | _prog :: videoPath :: streamName :: rest =>
    parseOptions
      ⟨videoPath, streamName, "tcp", "localhost", 9600, 9601, "480x270", "400k", ""⟩ rest
  | _ => none

theorem parseOptions_nonempty_none :
    ∀ (l : List String) (cfg : Config), l ≠ [] → parseOptions cfg l = none := by
  intro l
  induction l with
  | nil => intro cfg h; exact absurd rfl h
  | cons x rest ih =>
    intro cfg h
    cases rest with
    | nil => rfl
    | cons y rest2 => exact ih (applyOption cfg x y) (by simp)

/-! ## Theorem for C9 -/

/-- C9, code bug.  The option loop advances one token at a time, so an
option's value is re-examined as an option, and the final value always
triggers the missing-argument branch: every invocation with at least one
option token after the two positional arguments is rejected as a usage
error with exit code 1 (none) - including the documented pair
"--port 9700" - while an invocation with no options succeeds with all
defaults.  This contradicts the program's own usage text, which documents
the option/value pairs. -/
theorem C9_option_pairs_rejected :
    runParse ["streamer", "video.mp4", "stream1", "--port", "9700"] = none
    ∧ runParse ["streamer", "video.mp4", "stream1"]
        = some ⟨"video.mp4", "stream1", "tcp", "localhost", 9600, 9601, "480x270", "400k", ""⟩
    ∧ (∀ (prog v s opt : String) (rest : List String),
        runParse (prog :: v :: s :: opt :: rest) = none) := by
  refine ⟨?_, rfl, ?_⟩
  · exact parseOptions_nonempty_none _ _ (by simp)
  · intro prog v s opt rest
    exact parseOptions_nonempty_none _ _ (by simp)

end StreamingService
